import Mathlib

/-!
Verification of the Clove Python SDK wire protocol and the LLM worker loop.

The definitions below are shallow embeddings of the Python sources:
- `src/agents/python_sdk/clove_sdk/client.py` (namespace `Clove.ClientSdk`),
- `src/agents/python_sdk/agentos.py` (namespace `Clove.AgentOS`),
- `src/agents/llm_service/llm_service.py` (namespace `Clove.LlmService`).

Byte strings are modelled as `List Nat` whose entries are intended to be
below 256; `struct.pack`/`struct.unpack` little-endian fields are modelled
by explicit base-256 arithmetic.  A Python function that can raise an
exception is modelled with `Except`, and one that can return `None` with
`Option`.
-/

namespace Clove

/-- Little-endian decoding of a byte list (`struct.unpack` semantics):
the first element is the least significant byte. -/
def leDecode : List Nat → Nat
  | [] => 0
  | b :: rest => b + 256 * leDecode rest

/-- 4-byte little-endian encoding of `n % 2^32` (`struct.pack '<I'`). -/
def u32le (n : Nat) : List Nat :=
  [n % 256, n / 256 % 256, n / 65536 % 256, n / 16777216 % 256]

/-- 8-byte little-endian encoding of `n % 2^64` (`struct.pack '<Q'`). -/
def u64le (n : Nat) : List Nat :=
  [n % 256, n / 256 % 256, n / 65536 % 256, n / 16777216 % 256,
   n / 4294967296 % 256, n / 1099511627776 % 256,
   n / 281474976710656 % 256, n / 72057594037927936 % 256]

end Clove

namespace Clove.ClientSdk

/-- `MAGIC_BYTES = 0x41474E54` from clove_sdk/client.py. -/
def MAGIC_BYTES : Nat := 0x41474E54

/-- `HEADER_SIZE = 17` from clove_sdk/client.py. -/
def HEADER_SIZE : Nat := 17

/-- `MAX_PAYLOAD_SIZE = 1024 * 1024` from clove_sdk/client.py. -/
def MAX_PAYLOAD_SIZE : Nat := 1024 * 1024

/-- The numeric values of the `SyscallOp` enum in clove_sdk/client.py. -/
def syscallOps : List Nat :=
  [0x00, 0x01, 0x02, 0x03, 0x04,
   0x10, 0x11, 0x12, 0x14, 0x15,
   0x20, 0x21, 0x22, 0x23,
   0x30, 0x31, 0x32, 0x33,
   0x40, 0x41,
   0x50,
   0x60, 0x61, 0x62, 0x63,
   0xA0, 0xA1, 0xA2, 0xA3, 0xA4, 0xA5, 0xA6, 0xA7, 0xA8,
   0xB0, 0xB1, 0xB2, 0xB3, 0xB4,
   0xC0, 0xC1, 0xC2, 0xC3,
   0x76, 0x77,
   0x70, 0x71, 0x72, 0x73, 0x74,
   0xFF]

/-- The `Message` dataclass of clove_sdk/client.py.  The `opcode` field has
Python type `SyscallOp`; here it is a `Nat`, and membership in `syscallOps`
expresses that a value is a defined enum member. -/
structure Message where
  agent_id : Nat
  opcode : Nat
  payload : List Nat
deriving DecidableEq

/-- The byte string `struct.pack('<IIBQ', MAGIC_BYTES, agent_id, opcode,
len(payload)) + payload` produced when every packed field is in range. -/
def serializedBytes (m : Message) : List Nat :=
  u32le MAGIC_BYTES ++ u32le m.agent_id ++ [m.opcode] ++
    u64le m.payload.length ++ m.payload

/-- `Message.serialize` from clove_sdk/client.py.  `struct.pack` raises
`struct.error` when a field does not fit its format code ('I': u32,
'B': u8, 'Q': u64); that exception path is modelled by `none`. -/
def Message.serialize (m : Message) : Option (List Nat) :=
  if m.agent_id < 4294967296 ∧ m.opcode < 256 ∧
      m.payload.length < 18446744073709551616 then
    some (serializedBytes m)
  else
    none

/-- `Message.deserialize` from clove_sdk/client.py.  The guards return
`None` (modelled `.ok none`); when all guards pass, `SyscallOp(opcode)`
raises `ValueError` for an undefined opcode value, modelled `.error ()`. -/
def Message.deserialize (data : List Nat) : Except Unit (Option Message) :=
  if data.length < HEADER_SIZE then .ok none
  else
    let magic := leDecode (data.take 4)
    let agent_id := leDecode ((data.drop 4).take 4)
    let opcode := (data.drop 8).headD 0
    let payload_size := leDecode ((data.drop 9).take 8)
    if magic ≠ MAGIC_BYTES then .ok none
    else if payload_size > MAX_PAYLOAD_SIZE then .ok none
    else if data.length < HEADER_SIZE + payload_size then .ok none
    else if opcode ∈ syscallOps then
      .ok (some ⟨agent_id, opcode, (data.drop HEADER_SIZE).take payload_size⟩)
    else .error ()

end Clove.ClientSdk

namespace Clove.ClientSdk.CloveClient

open Clove.ClientSdk

/-- The loop body of `CloveClient._recv_exact`.  The socket is modelled as a
deterministic byte stream: `sock.recv(k)` yields `sock.take k` (empty only
at EOF).  `fuel` bounds the iteration count; `sock.length + 1` always
suffices because every iteration consumes at least one byte. -/
def recv_exact_aux : Nat → List Nat → List Nat → Nat →
    Option (List Nat × List Nat)
  | 0, _, _, _ => none
  | fuel + 1, sock, data, n =>
    if data.length < n then
      let chunk := sock.take (n - data.length)
      if chunk.isEmpty then none
      else recv_exact_aux fuel (sock.drop (n - data.length)) (data ++ chunk) n
    else some (data, sock)

/-- `CloveClient._recv_exact(n)`: returns the `n` bytes read and the rest of
the stream, or `none` when the stream hits EOF first. -/
def recv_exact (sock : List Nat) (n : Nat) : Option (List Nat × List Nat) :=
  recv_exact_aux (sock.length + 1) sock [] n

/-- `CloveClient.recv` from clove_sdk/client.py.  The state is the stored
`_agent_id`; the result is the updated `_agent_id` paired with the received
message and remaining stream (or `none`: short read, bad magic, or the
`SyscallOp(opcode)` `ValueError` swallowed by the `except` clause).  Note
that `self._agent_id` is assigned before `SyscallOp(opcode)` is evaluated,
so the state updates even on the undefined-opcode path. -/
def recv (agentId : Nat) (sock : List Nat) :
    Nat × Option (Message × List Nat) :=
  match recv_exact sock HEADER_SIZE with
  | none => (agentId, none)
  | some (header, rest) =>
    let magic := leDecode (header.take 4)
    let aid := leDecode ((header.drop 4).take 4)
    let opcode := (header.drop 8).headD 0
    let payload_size := leDecode ((header.drop 9).take 8)
    if magic ≠ MAGIC_BYTES then (agentId, none)
    else if payload_size > 0 then
      match recv_exact rest payload_size with
      | none => (agentId, none)
      | some (payload, rest2) =>
        if payload.isEmpty then (agentId, none)
        else if opcode ∈ syscallOps then
          (aid, some (⟨aid, opcode, payload⟩, rest2))
        else (aid, none)
    else if opcode ∈ syscallOps then (aid, some (⟨aid, opcode, []⟩, rest))
    else (aid, none)

/-- `CloveClient.send` on a connected socket: the frame written by
`sendall` is `Message(self._agent_id, opcode, payload).serialize()`;
`none` when `serialize` raises (caught, returning False, nothing sent). -/
def send (agentId : Nat) (opcode : Nat) (payload : List Nat) :
    Option (List Nat) :=
  Message.serialize ⟨agentId, opcode, payload⟩

/-- The addressing payload built by `kill` / `pause` / `resume`. -/
inductive Target where
  | byName (name : String)
  | byId (id : Nat)
deriving DecidableEq

/-- `elif agent_id:` — Python truthiness: `None` and `0` are falsy. -/
def selectById : Option Nat → Option Target
  | some i => if i = 0 then none else some (.byId i)
  | none => none

/-- `if name: ... elif agent_id: ... else: return False` — Python
truthiness: `None` and `""` are falsy for `name`. -/
def selectTarget : Option String → Option Nat → Option Target
  | some s, aid => if s.isEmpty then selectById aid else some (.byName s)
  | none, aid => selectById aid

/-- `CloveClient.kill`.  `respond t` models `call(SYS_KILL, payload)`
followed by `json.loads(...).get("killed", False)`: `none` when no
response frame arrives.  The second component lists the frames sent,
as (opcode, addressing) pairs. -/
def kill (name : Option String) (agentId : Option Nat)
    (respond : Target → Option Bool) : Bool × List (Nat × Target) :=
  match selectTarget name agentId with
  | none => (false, [])
  | some t => ((respond t).getD false, [(0x11, t)])

/-- `CloveClient.pause`: as `kill` but opcode `SYS_PAUSE` and response key
`"success"`. -/
def pause (name : Option String) (agentId : Option Nat)
    (respond : Target → Option Bool) : Bool × List (Nat × Target) :=
  match selectTarget name agentId with
  | none => (false, [])
  | some t => ((respond t).getD false, [(0x14, t)])

/-- `CloveClient.resume`: as `kill` but opcode `SYS_RESUME` and response key
`"success"`. -/
def resume (name : Option String) (agentId : Option Nat)
    (respond : Target → Option Bool) : Bool × List (Nat × Target) :=
  match selectTarget name agentId with
  | none => (false, [])
  | some t => ((respond t).getD false, [(0x15, t)])

end Clove.ClientSdk.CloveClient

namespace Clove.AgentOS

/-- `MAGIC_BYTES = 0x41474E54` from agentos.py. -/
def MAGIC_BYTES : Nat := 0x41474E54

/-- `HEADER_SIZE = 17` from agentos.py. -/
def HEADER_SIZE : Nat := 17

/-- `MAX_PAYLOAD_SIZE = 1024 * 1024` from agentos.py. -/
def MAX_PAYLOAD_SIZE : Nat := 1024 * 1024

/-- The numeric values of the `SyscallOp` enum in agentos.py (a strict
subset of the clove_sdk enum). -/
def syscallOps : List Nat :=
  [0x00, 0x01, 0x02, 0x03, 0x04,
   0x10, 0x11, 0x12,
   0x20, 0x21, 0x22, 0x23,
   0x40, 0x41,
   0x50,
   0xFF]

/-- The `Message` dataclass of agentos.py. -/
structure Message where
  agent_id : Nat
  opcode : Nat
  payload : List Nat
deriving DecidableEq

/-- The byte string packed by `Message.serialize` in agentos.py when every
field is in range. -/
def serializedBytes (m : Message) : List Nat :=
  u32le MAGIC_BYTES ++ u32le m.agent_id ++ [m.opcode] ++
    u64le m.payload.length ++ m.payload

/-- `Message.serialize` from agentos.py (same `struct.pack('<IIBQ', ...)`
call as the clove_sdk copy). -/
def Message.serialize (m : Message) : Option (List Nat) :=
  if m.agent_id < 4294967296 ∧ m.opcode < 256 ∧
      m.payload.length < 18446744073709551616 then
    some (serializedBytes m)
  else
    none

/-- `Message.deserialize` from agentos.py; guards identical to the
clove_sdk copy, but `SyscallOp(opcode)` consults the agentos.py enum. -/
def Message.deserialize (data : List Nat) : Except Unit (Option Message) :=
  if data.length < HEADER_SIZE then .ok none
  else
    let magic := leDecode (data.take 4)
    let agent_id := leDecode ((data.drop 4).take 4)
    let opcode := (data.drop 8).headD 0
    let payload_size := leDecode ((data.drop 9).take 8)
    if magic ≠ MAGIC_BYTES then .ok none
    else if payload_size > MAX_PAYLOAD_SIZE then .ok none
    else if data.length < HEADER_SIZE + payload_size then .ok none
    else if opcode ∈ syscallOps then
      .ok (some ⟨agent_id, opcode, (data.drop HEADER_SIZE).take payload_size⟩)
    else .error ()

end Clove.AgentOS

namespace Clove

/-- Field-preserving map between the two structurally identical `Message`
dataclasses (they are distinct Python classes). -/
def toClientMessage (m : AgentOS.Message) : ClientSdk.Message :=
  ⟨m.agent_id, m.opcode, m.payload⟩

end Clove

namespace Clove.LlmService

/-- A function call extracted from a model candidate part
(`{"name": fc.name, "arguments": dict(fc.args)}`). -/
structure FunctionCall where
  name : String
  args : List (String × String)
deriving DecidableEq

/-- One part of a candidate's content: `part.function_call` and
`part.text` may each be absent/None. -/
structure Part where
  function_call : Option FunctionCall
  text : Option String
deriving DecidableEq

/-- `candidate.content`, holding `content.parts` (None/[] both modelled as
the empty list: `if parts:` treats them alike). -/
structure Content where
  parts : List Part
deriving DecidableEq

/-- One entry of `response.candidates`; `candidate.content` may be None. -/
structure Candidate where
  content : Option Content
deriving DecidableEq

/-- The parts of the google-genai response object that `handle_request`
reads.  `usage_metadata` is `total_token_count` when present.  `textAttr`
models the `response.text` property, which may raise (modelled `.error`)
or yield None (`.ok none`) or a string. -/
structure GenaiResponse where
  usage_metadata : Option Nat
  candidates : List Candidate
  textAttr : Except Unit (Option String)

/-- The response dict written by the worker: keys `success`, `content`,
and optionally `tokens`, `function_calls`, `error`. -/
structure LLMResult where
  success : Bool
  content : String
  tokens : Option Nat
  function_calls : Option (List FunctionCall)
  error : Option String
deriving DecidableEq

/-- The function-call entries collected from one part
(`if hasattr(part, 'function_call') and part.function_call`). -/
def partCalls (p : Part) : List FunctionCall :=
  match p.function_call with
  | some fc => [fc]
  | none => []

/-- Function calls collected from one candidate. -/
def candidateCalls (c : Candidate) : List FunctionCall :=
  match c.content with
  | some ct => ct.parts.flatMap partCalls
  | none => []

/-- The `function_calls` list accumulated over `response.candidates`. -/
def extractCalls (resp : GenaiResponse) : List FunctionCall :=
  resp.candidates.flatMap candidateCalls

/-- The first truthy `part.text` in a parts list (`break` leaves the inner
loop at the first hit). -/
def firstText : List Part → Option String
  | [] => none
  | p :: rest =>
    match p.text with
    | some t => if t.isEmpty then firstText rest else some t
    | none => firstText rest

/-- The fallback scan of `response.candidates` run when `response.text`
raises: the outer loop is not broken, so a later candidate's first truthy
part text overwrites an earlier one. -/
def fallbackText (cands : List Candidate) : String :=
  cands.foldl
    (fun acc c =>
      match c.content with
      | some ct =>
        match firstText ct.parts with
        | some t => t
        | none => acc
      | none => acc)
    ""

/-- `content_text` extraction: `response.text` if it is truthy and does not
raise, otherwise the fallback scan over candidate parts. -/
def extractText (resp : GenaiResponse) : String :=
  match resp.textAttr with
  | .ok t => t.getD ""
  | .error _ => fallbackText resp.candidates

/-- `handle_request` from llm_service.py.  Everything inside its `try`
block — request processing, the `generate_content` call, and extraction —
is summarised by `outcome`: `.error e` is any exception reaching the
`except` clause, `.ok resp` a returned response object. -/
def handle_request (outcome : Except String GenaiResponse) : LLMResult :=
  match outcome with
  | .error e => ⟨false, "", none, none, some e⟩
  | .ok resp =>
    let tokens :=
      match resp.usage_metadata with
      | some count => count
      | none => 0
    let function_calls := extractCalls resp
    let content_text := extractText resp
    ⟨true, content_text, some tokens,
      if function_calls.isEmpty then none else some function_calls,
      none⟩

/-- One line read from stdin by `main`, after `line.strip()`:
blank (skipped), invalid JSON (the `json.JSONDecodeError` message), or a
parsed request whose processing outcome is given. -/
inductive StdinLine where
  | blank
  | badJson (msg : String)
  | request (outcome : Except String GenaiResponse)

/-- Whether the stripped line is empty (`if not line: continue`). -/
def StdinLine.isBlank : StdinLine → Bool
  | .blank => true
  | _ => false

/-- The response printed for a line that fails `json.loads`. -/
def badJsonResponse (msg : String) : LLMResult :=
  ⟨false, "", none, none, some ("Invalid JSON: " ++ msg)⟩

/-- The `main` loop of llm_service.py: one response line per non-blank
stdin line.  `init` is the result of `get_client()` at startup; when it
failed, every request line is answered with the stored init error. -/
def mainLoop (init : Except String Unit) : List StdinLine → List LLMResult
  | [] => []
  | .blank :: rest => mainLoop init rest
  | .badJson msg :: rest => badJsonResponse msg :: mainLoop init rest
  | .request outcome :: rest =>
    (match init with
     | .error initError => ⟨false, "", none, none, some initError⟩
     | .ok _ => handle_request outcome) :: mainLoop init rest

end Clove.LlmService

namespace Clove

lemma leDecode_u32le (n : Nat) : leDecode (u32le n) = n % 4294967296 := by
  simp [u32le, leDecode]
  omega

lemma leDecode_u64le (n : Nat) :
    leDecode (u64le n) = n % 18446744073709551616 := by
  simp [u64le, leDecode]
  omega

lemma take4_eq_magic (l : List Nat) (h4 : 4 ≤ l.length)
    (hb : ∀ b ∈ l, b < 256) (h : leDecode (l.take 4) = 0x41474E54) :
    l.take 4 = u32le 0x41474E54 := by
  rcases l with _ | ⟨b0, _ | ⟨b1, _ | ⟨b2, _ | ⟨b3, rest⟩⟩⟩⟩ <;>
    simp only [List.length_nil, List.length_cons] at h4 <;> try omega
  have ht : (b0 :: b1 :: b2 :: b3 :: rest).take 4 = [b0, b1, b2, b3] := rfl
  rw [ht] at h ⊢
  have hb0 : b0 < 256 := hb b0 (by simp)
  have hb1 : b1 < 256 := hb b1 (by simp)
  have hb2 : b2 < 256 := hb b2 (by simp)
  have hb3 : b3 < 256 := hb b3 (by simp)
  simp only [leDecode] at h
  simp only [u32le, List.cons.injEq, and_true]
  norm_num at h ⊢
  omega

end Clove

namespace Clove.ClientSdk

lemma serializedBytes_length (m : Message) :
    (serializedBytes m).length = 17 + m.payload.length := by
  simp [serializedBytes, u32le, u64le]
  omega

lemma serializedBytes_take4 (m : Message) :
    (serializedBytes m).take 4 = u32le MAGIC_BYTES := rfl

lemma serializedBytes_drop4_take4 (m : Message) :
    ((serializedBytes m).drop 4).take 4 = u32le m.agent_id := rfl

lemma serializedBytes_drop8_head (m : Message) :
    ((serializedBytes m).drop 8).headD 0 = m.opcode := rfl

lemma serializedBytes_drop9_take8 (m : Message) :
    ((serializedBytes m).drop 9).take 8 = u64le m.payload.length := rfl

lemma serializedBytes_drop17 (m : Message) :
    (serializedBytes m).drop 17 = m.payload := rfl

lemma mem_syscallOps_lt (op : Nat) (h : op ∈ syscallOps) : op < 256 := by
  have hall : ∀ x ∈ syscallOps, x < 256 := by decide
  exact hall op h

/-- Every well-formed frame round-trips through `Message.deserialize`. -/
lemma deserialize_serializedBytes (m : Message)
    (ha : m.agent_id < 4294967296) (hop : m.opcode ∈ syscallOps)
    (hlen : m.payload.length ≤ 1048576) :
    Message.deserialize (serializedBytes m) = .ok (some m) := by
  have e1 : leDecode ((serializedBytes m).take 4) = MAGIC_BYTES := by
    rw [serializedBytes_take4, leDecode_u32le]
    decide
  have e2 : leDecode (((serializedBytes m).drop 4).take 4) = m.agent_id := by
    rw [serializedBytes_drop4_take4, leDecode_u32le, Nat.mod_eq_of_lt ha]
  have e3 : ((serializedBytes m).drop 8).headD 0 = m.opcode :=
    serializedBytes_drop8_head m
  have e4 : leDecode (((serializedBytes m).drop 9).take 8) =
      m.payload.length := by
    rw [serializedBytes_drop9_take8, leDecode_u64le,
      Nat.mod_eq_of_lt (by omega)]
  have h17 := serializedBytes_length m
  simp only [Message.deserialize, e1, e2, e3, e4, h17, HEADER_SIZE,
    MAX_PAYLOAD_SIZE]
  rw [if_neg (by omega), if_neg (by simp), if_neg (by omega),
    if_neg (by omega), if_pos hop, serializedBytes_drop17,
    List.take_length]

/-- A frame whose declared payload length exceeds the cap is rejected. -/
lemma deserialize_serializedBytes_large (m : Message)
    (hlo : 1048576 < m.payload.length)
    (hhi : m.payload.length < 18446744073709551616) :
    Message.deserialize (serializedBytes m) = .ok none := by
  have e1 : leDecode ((serializedBytes m).take 4) = MAGIC_BYTES := by
    rw [serializedBytes_take4, leDecode_u32le]
    decide
  have e4 : leDecode (((serializedBytes m).drop 9).take 8) =
      m.payload.length := by
    rw [serializedBytes_drop9_take8, leDecode_u64le, Nat.mod_eq_of_lt hhi]
  have h17 := serializedBytes_length m
  simp only [Message.deserialize, e1, e4, h17, HEADER_SIZE, MAX_PAYLOAD_SIZE]
  rw [if_neg (by omega), if_neg (by simp), if_pos (by omega)]

end Clove.ClientSdk

namespace Clove.ClientSdk.CloveClient

lemma recv_exact_aux_done (fuel : Nat) (sock data : List Nat) (n : Nat)
    (h : ¬ data.length < n) :
    recv_exact_aux (fuel + 1) sock data n = some (data, sock) := by
  simp [recv_exact_aux, h]

lemma recv_exact_aux_step (fuel : Nat) (sock data : List Nat) (n : Nat)
    (h : data.length < n) (hs : sock ≠ []) :
    recv_exact_aux (fuel + 1) sock data n =
      recv_exact_aux fuel (sock.drop (n - data.length))
        (data ++ sock.take (n - data.length)) n := by
  have hchunk : ¬ (sock.take (n - data.length)).isEmpty := by
    simp [List.isEmpty_iff, List.take_eq_nil_iff, hs]
    omega
  simp [recv_exact_aux, h, hchunk]

lemma recv_exact_aux_eof (fuel : Nat) (data : List Nat) (n : Nat)
    (h : data.length < n) :
    recv_exact_aux (fuel + 1) [] data n = none := by
  simp [recv_exact_aux, h]

/-- When the stream holds at least `n` bytes, `_recv_exact` returns exactly
the first `n` of them. -/
lemma recv_exact_of_le (sock : List Nat) (n : Nat) (h : n ≤ sock.length) :
    recv_exact sock n = some (sock.take n, sock.drop n) := by
  unfold recv_exact
  rcases Nat.eq_zero_or_pos n with hn | hn
  · subst hn
    rw [recv_exact_aux_done _ _ _ _ (by simp)]
    simp
  · have hs : sock ≠ [] := by
      intro he
      rw [he] at h
      simp at h
      omega
    rw [recv_exact_aux_step _ _ _ _ (by simpa using hn) hs]
    simp only [List.length_nil, Nat.sub_zero, List.nil_append]
    have hlen : sock.length = (sock.length - 1) + 1 := by
      have := List.length_pos.mpr hs
      omega
    rw [hlen, recv_exact_aux_done]
    rw [List.length_take]
    omega

/-- When the stream ends before `n` bytes arrive, `_recv_exact` returns
`None`. -/
lemma recv_exact_short (sock : List Nat) (n : Nat) (h : sock.length < n) :
    recv_exact sock n = none := by
  unfold recv_exact
  rcases sock with _ | ⟨b, rest⟩
  · exact recv_exact_aux_eof _ [] n (by simpa using h)
  · rw [recv_exact_aux_step _ _ _ _ (by simp at h ⊢; omega) (by simp)]
    simp only [List.length_nil, Nat.sub_zero, List.nil_append,
      List.length_cons]
    rw [List.drop_eq_nil_of_le (by simp at h ⊢; omega)]
    apply recv_exact_aux_eof
    rw [List.length_take]
    simp at h ⊢
    omega

end Clove.ClientSdk.CloveClient

namespace Clove

/-- C1: For every `Message` whose `agent_id` fits in 32 bits, whose opcode
is a defined `SyscallOp` value, and whose payload is a byte string (so
`struct.pack` succeeds), `Message.serialize` produces a 17-byte
little-endian header followed by the payload: magic `0x41474E54` as u32 at
offset 0, `agent_id` as u32 at offset 4, opcode as u8 at offset 8, the
payload length as u64 at offset 9, and the payload bytes from offset 17. -/
theorem claim_C1_serialize_layout (m : ClientSdk.Message)
    (ha : m.agent_id < 4294967296) (hop : m.opcode ∈ ClientSdk.syscallOps)
    (hp : m.payload.length < 18446744073709551616) :
    ∃ bs, m.serialize = some bs ∧
      bs.length = 17 + m.payload.length ∧
      bs.take 4 = u32le 0x41474E54 ∧
      (bs.drop 4).take 4 = u32le m.agent_id ∧
      (bs.drop 8).headD 0 = m.opcode ∧
      (bs.drop 9).take 8 = u64le m.payload.length ∧
      bs.drop 17 = m.payload := by
  have hop256 : m.opcode < 256 := ClientSdk.mem_syscallOps_lt m.opcode hop
  refine ⟨ClientSdk.serializedBytes m, ?_, ClientSdk.serializedBytes_length m,
    ClientSdk.serializedBytes_take4 m, ClientSdk.serializedBytes_drop4_take4 m,
    ClientSdk.serializedBytes_drop8_head m,
    ClientSdk.serializedBytes_drop9_take8 m,
    ClientSdk.serializedBytes_drop17 m⟩
  simp [ClientSdk.Message.serialize, ha, hop256, hp]

theorem claim_C1_serialize_layout_witness :
    ∃ bs, ClientSdk.Message.serialize ⟨1, 0, [7]⟩ = some bs ∧
      bs.length = 17 + ([7] : List Nat).length ∧
      bs.take 4 = u32le 0x41474E54 ∧
      (bs.drop 4).take 4 = u32le 1 ∧
      (bs.drop 8).headD 0 = 0 ∧
      (bs.drop 9).take 8 = u64le ([7] : List Nat).length ∧
      bs.drop 17 = [7] :=
  claim_C1_serialize_layout ⟨1, 0, [7]⟩ (by decide) (by decide) (by decide)

/-- C2: `Message.deserialize` accepts a frame whose header declares a
payload length of exactly 1 MiB and returns the parsed `Message`, and
returns `None` for a frame whose header declares payload length
1 MiB + 1. -/
theorem claim_C2_payload_boundary (a op : Nat) (p : List Nat)
    (ha : a < 4294967296) (hop : op ∈ ClientSdk.syscallOps) :
    (p.length = 1048576 →
      ∃ bs, ClientSdk.Message.serialize ⟨a, op, p⟩ = some bs ∧
        ClientSdk.Message.deserialize bs = .ok (some ⟨a, op, p⟩))
  ∧ (p.length = 1048577 →
      ∃ bs, ClientSdk.Message.serialize ⟨a, op, p⟩ = some bs ∧
        ClientSdk.Message.deserialize bs = .ok none) := by
  have hop256 : op < 256 := ClientSdk.mem_syscallOps_lt op hop
  constructor
  · intro hlen
    refine ⟨ClientSdk.serializedBytes ⟨a, op, p⟩, ?_, ?_⟩
    · simp [ClientSdk.Message.serialize, ha, hop256]
      omega
    · exact ClientSdk.deserialize_serializedBytes ⟨a, op, p⟩ ha hop
        (by simpa using hlen.le)
  · intro hlen
    refine ⟨ClientSdk.serializedBytes ⟨a, op, p⟩, ?_, ?_⟩
    · simp [ClientSdk.Message.serialize, ha, hop256]
      omega
    · exact ClientSdk.deserialize_serializedBytes_large ⟨a, op, p⟩
        (by simp [hlen]) (by simp [hlen])

theorem claim_C2_payload_boundary_witness :
    (∃ bs, ClientSdk.Message.serialize ⟨1, 0, List.replicate 1048576 0⟩ =
        some bs ∧
      ClientSdk.Message.deserialize bs =
        .ok (some ⟨1, 0, List.replicate 1048576 0⟩))
  ∧ (∃ bs, ClientSdk.Message.serialize ⟨1, 0, List.replicate 1048577 0⟩ =
        some bs ∧
      ClientSdk.Message.deserialize bs = .ok none) :=
  ⟨(claim_C2_payload_boundary 1 0 (List.replicate 1048576 0) (by decide)
      (by decide)).1 (List.length_replicate 1048576 0),
   (claim_C2_payload_boundary 1 0 (List.replicate 1048577 0) (by decide)
      (by decide)).2 (List.length_replicate 1048577 0)⟩

/-- C3: for every `Message` whose `agent_id` fits in 32 bits, whose opcode
is a defined `SyscallOp` value and whose payload is at most 1 MiB,
deserializing the serialized frame returns the original message. -/
theorem claim_C3_roundtrip (m : ClientSdk.Message)
    (ha : m.agent_id < 4294967296) (hop : m.opcode ∈ ClientSdk.syscallOps)
    (hlen : m.payload.length ≤ 1048576) :
    ∃ bs, m.serialize = some bs ∧
      ClientSdk.Message.deserialize bs = .ok (some m) := by
  have hop256 : m.opcode < 256 := ClientSdk.mem_syscallOps_lt m.opcode hop
  refine ⟨ClientSdk.serializedBytes m, ?_, ?_⟩
  · simp [ClientSdk.Message.serialize, ha, hop256]
    omega
  · exact ClientSdk.deserialize_serializedBytes m ha hop hlen

theorem claim_C3_roundtrip_witness :
    ∃ bs, ClientSdk.Message.serialize ⟨7, 1, [104, 105]⟩ = some bs ∧
      ClientSdk.Message.deserialize bs = .ok (some ⟨7, 1, [104, 105]⟩) :=
  claim_C3_roundtrip ⟨7, 1, [104, 105]⟩ (by decide) (by decide) (by decide)

/-- C8: `Message.deserialize` returns `None` — without raising — for every
byte-string input shorter than 17 bytes, or whose first 4 bytes are not
the little-endian magic `0x41474E54`, or whose declared payload length
exceeds 1 MiB, or whose total length is shorter than 17 plus the declared
payload length. -/
theorem claim_C8_deserialize_guards (data : List Nat)
    (hbytes : ∀ b ∈ data, b < 256)
    (h : data.length < 17 ∨
         data.take 4 ≠ u32le 0x41474E54 ∨
         1048576 < leDecode ((data.drop 9).take 8) ∨
         data.length < 17 + leDecode ((data.drop 9).take 8)) :
    ClientSdk.Message.deserialize data = .ok none := by
  simp only [ClientSdk.Message.deserialize, ClientSdk.HEADER_SIZE,
    ClientSdk.MAX_PAYLOAD_SIZE, ClientSdk.MAGIC_BYTES]
  split_ifs with h1 h2 h3 h4 h5
  · rfl
  · rfl
  · rfl
  · rfl
  all_goals exfalso
  all_goals
    have htake : data.take 4 = u32le 0x41474E54 :=
      take4_eq_magic data (by omega) hbytes (by omega)
  all_goals rcases h with h | h | h | h <;> first
    | omega
    | exact h htake

theorem claim_C8_deserialize_guards_witness :
    ClientSdk.Message.deserialize [] = .ok none :=
  claim_C8_deserialize_guards [] (by simp) (Or.inl (by decide))

end Clove

namespace Clove

/-- C7: `_recv_exact(n)` returns exactly `n` bytes when the stream supplies
them and `None` at EOF before `n` bytes; consequently `CloveClient.recv`
returns `None` (without raising) on a short read at EOF and on a header
with invalid magic. -/
theorem claim_C7_recv_exact_and_recv :
    (∀ (sock : List Nat) (n : Nat), n ≤ sock.length →
        ClientSdk.CloveClient.recv_exact sock n =
          some (sock.take n, sock.drop n))
  ∧ (∀ (sock : List Nat) (n : Nat), sock.length < n →
        ClientSdk.CloveClient.recv_exact sock n = none)
  ∧ (∀ (st : Nat) (sock : List Nat), sock.length < 17 →
        (ClientSdk.CloveClient.recv st sock).2 = none)
  ∧ (∀ (st : Nat) (sock : List Nat), 17 ≤ sock.length →
        leDecode (sock.take 4) ≠ 0x41474E54 →
        (ClientSdk.CloveClient.recv st sock).2 = none) := by
  refine ⟨ClientSdk.CloveClient.recv_exact_of_le,
    ClientSdk.CloveClient.recv_exact_short, ?_, ?_⟩
  · intro st sock h
    simp only [ClientSdk.CloveClient.recv, ClientSdk.HEADER_SIZE]
    rw [ClientSdk.CloveClient.recv_exact_short sock 17 h]
  · intro st sock h hm
    simp only [ClientSdk.CloveClient.recv, ClientSdk.HEADER_SIZE]
    rw [ClientSdk.CloveClient.recv_exact_of_le sock 17 h]
    have ht : (sock.take 17).take 4 = sock.take 4 := by
      rw [List.take_take]
      norm_num
    dsimp only
    rw [if_pos]
    rw [ht]
    exact hm

theorem claim_C7_recv_exact_and_recv_witness :
    ClientSdk.CloveClient.recv_exact [1, 2, 3] 2 = some ([1, 2], [3])
  ∧ ClientSdk.CloveClient.recv_exact [1] 2 = none
  ∧ (ClientSdk.CloveClient.recv 0 []).2 = none
  ∧ (ClientSdk.CloveClient.recv 0 (List.replicate 17 0)).2 = none :=
  ⟨claim_C7_recv_exact_and_recv.1 [1, 2, 3] 2 (by decide),
   claim_C7_recv_exact_and_recv.2.1 [1] 2 (by decide),
   claim_C7_recv_exact_and_recv.2.2.1 0 [] (by decide),
   claim_C7_recv_exact_and_recv.2.2.2 0 (List.replicate 17 0) (by decide)
     (by decide)⟩

/-- After a successful `CloveClient.recv`, the stored `_agent_id` is the
`agent_id` of the received message. -/
lemma recv_success_agent_id (st : Nat) (sock : List Nat)
    (msg : ClientSdk.Message) (rest : List Nat)
    (h : (ClientSdk.CloveClient.recv st sock).2 = some (msg, rest)) :
    (ClientSdk.CloveClient.recv st sock).1 = msg.agent_id := by
  rcases hr : ClientSdk.CloveClient.recv st sock with ⟨newId, res⟩
  rw [hr] at h
  simp only at h
  subst h
  simp only
  simp only [ClientSdk.CloveClient.recv] at hr
  split at hr
  · simp at hr
  · split at hr
    · simp at hr
    · split at hr
      · split at hr
        · simp at hr
        · split at hr
          · simp at hr
          · split at hr
            · simp only [Prod.mk.injEq, Option.some.injEq] at hr
              obtain ⟨h1, h2, h3⟩ := hr
              subst h1
              rw [← h2]
            · simp at hr
      · split at hr
        · simp only [Prod.mk.injEq, Option.some.injEq] at hr
          obtain ⟨h1, h2, h3⟩ := hr
          subst h1
          rw [← h2]
        · simp at hr

/-- C4: after `CloveClient.recv` returns a response message, the stored
agent id equals the response's `agent_id`, and every frame subsequently
emitted by `CloveClient.send` carries that agent id (as u32 at offset 4 of
its header). -/
theorem claim_C4_agent_id_propagation (st : Nat) (sock : List Nat)
    (msg : ClientSdk.Message) (rest : List Nat)
    (h : (ClientSdk.CloveClient.recv st sock).2 = some (msg, rest)) :
    (ClientSdk.CloveClient.recv st sock).1 = msg.agent_id
  ∧ ∀ (op : Nat) (p bs : List Nat),
      ClientSdk.CloveClient.send (ClientSdk.CloveClient.recv st sock).1 op p =
        some bs →
      (bs.drop 4).take 4 = u32le msg.agent_id := by
  have h1 := recv_success_agent_id st sock msg rest h
  refine ⟨h1, ?_⟩
  intro op p bs hs
  rw [h1] at hs
  unfold ClientSdk.CloveClient.send ClientSdk.Message.serialize at hs
  split at hs
  · rw [Option.some.injEq] at hs
    rw [← hs]
    exact ClientSdk.serializedBytes_drop4_take4 ⟨msg.agent_id, op, p⟩
  · simp at hs

theorem claim_C4_agent_id_propagation_witness :
    (ClientSdk.CloveClient.recv 0
        (ClientSdk.serializedBytes ⟨5, 0, [42]⟩)).1 = 5
  ∧ ∀ (op : Nat) (p bs : List Nat),
      ClientSdk.CloveClient.send
        (ClientSdk.CloveClient.recv 0
          (ClientSdk.serializedBytes ⟨5, 0, [42]⟩)).1 op p = some bs →
      (bs.drop 4).take 4 = u32le 5 :=
  claim_C4_agent_id_propagation 0 (ClientSdk.serializedBytes ⟨5, 0, [42]⟩)
    ⟨5, 0, [42]⟩ [] (by decide)

/-- C9: `kill`, `pause` and `resume` with no (or empty) name and agent id
absent or 0 return `False` without sending any frame, and agent id 0 is
indistinguishable from an absent id at this interface. -/
theorem claim_C9_falsy_targets :
    (∀ (name : Option String) (agentId : Option Nat)
        (respond : ClientSdk.CloveClient.Target → Option Bool),
      (name = none ∨ name = some "") →
      (agentId = none ∨ agentId = some 0) →
        ClientSdk.CloveClient.kill name agentId respond = (false, [])
      ∧ ClientSdk.CloveClient.pause name agentId respond = (false, [])
      ∧ ClientSdk.CloveClient.resume name agentId respond = (false, []))
  ∧ (∀ (name : Option String)
        (respond : ClientSdk.CloveClient.Target → Option Bool),
      ClientSdk.CloveClient.kill name (some 0) respond =
        ClientSdk.CloveClient.kill name none respond
    ∧ ClientSdk.CloveClient.pause name (some 0) respond =
        ClientSdk.CloveClient.pause name none respond
    ∧ ClientSdk.CloveClient.resume name (some 0) respond =
        ClientSdk.CloveClient.resume name none respond) := by
  have hsel : ∀ (name : Option String) (agentId : Option Nat),
      (name = none ∨ name = some "") → (agentId = none ∨ agentId = some 0) →
      ClientSdk.CloveClient.selectTarget name agentId = none := by
    rintro _ _ (rfl | rfl) (rfl | rfl) <;> decide
  have hzero : ∀ name : Option String,
      ClientSdk.CloveClient.selectTarget name (some 0) =
        ClientSdk.CloveClient.selectTarget name none := by
    intro name
    cases name <;>
      simp [ClientSdk.CloveClient.selectTarget, ClientSdk.CloveClient.selectById]
  constructor
  · intro name agentId respond hn ha
    refine ⟨?_, ?_, ?_⟩ <;>
      simp [ClientSdk.CloveClient.kill, ClientSdk.CloveClient.pause,
        ClientSdk.CloveClient.resume, hsel name agentId hn ha]
  · intro name respond
    refine ⟨?_, ?_, ?_⟩ <;>
      simp [ClientSdk.CloveClient.kill, ClientSdk.CloveClient.pause,
        ClientSdk.CloveClient.resume, hzero name]

theorem claim_C9_falsy_targets_witness :
    (ClientSdk.CloveClient.kill none (some 0) (fun _ => none) = (false, [])
   ∧ ClientSdk.CloveClient.pause none (some 0) (fun _ => none) = (false, [])
   ∧ ClientSdk.CloveClient.resume none (some 0) (fun _ => none) = (false, []))
  ∧ (ClientSdk.CloveClient.kill (some "w") (some 0) (fun _ => some true) =
       ClientSdk.CloveClient.kill (some "w") none (fun _ => some true)
   ∧ ClientSdk.CloveClient.pause (some "w") (some 0) (fun _ => some true) =
       ClientSdk.CloveClient.pause (some "w") none (fun _ => some true)
   ∧ ClientSdk.CloveClient.resume (some "w") (some 0) (fun _ => some true) =
       ClientSdk.CloveClient.resume (some "w") none (fun _ => some true)) :=
  ⟨claim_C9_falsy_targets.1 none (some 0) (fun _ => none) (Or.inl rfl)
     (Or.inr rfl),
   claim_C9_falsy_targets.2 (some "w") (fun _ => some true)⟩

end Clove

namespace Clove

/-- C10: the two SDK embeddings of the wire protocol agree: for every
agent id, payload, and opcode value defined in both `SyscallOp` enums,
the two `Message.serialize` functions produce identical bytes, and the two
`Message.deserialize` functions return equal results (up to the
field-preserving map between the two dataclasses) on every input whose
opcode byte both enums define. -/
theorem claim_C10_sdk_agreement :
    (∀ (a op : Nat) (p : List Nat), op ∈ AgentOS.syscallOps →
        op ∈ ClientSdk.syscallOps →
        AgentOS.Message.serialize ⟨a, op, p⟩ =
          ClientSdk.Message.serialize ⟨a, op, p⟩)
  ∧ (∀ data : List Nat, (data.drop 8).headD 0 ∈ AgentOS.syscallOps →
        (data.drop 8).headD 0 ∈ ClientSdk.syscallOps →
        (AgentOS.Message.deserialize data).map (Option.map toClientMessage) =
          ClientSdk.Message.deserialize data) := by
  constructor
  · intro a op p _ _
    simp only [AgentOS.Message.serialize, ClientSdk.Message.serialize,
      AgentOS.serializedBytes, ClientSdk.serializedBytes,
      AgentOS.MAGIC_BYTES, ClientSdk.MAGIC_BYTES]
  · intro data h1 h2
    simp only [AgentOS.Message.deserialize, ClientSdk.Message.deserialize,
      AgentOS.MAGIC_BYTES, ClientSdk.MAGIC_BYTES, AgentOS.HEADER_SIZE,
      ClientSdk.HEADER_SIZE, AgentOS.MAX_PAYLOAD_SIZE,
      ClientSdk.MAX_PAYLOAD_SIZE]
    split_ifs <;> simp_all [Except.map, toClientMessage]

theorem claim_C10_sdk_agreement_witness :
    AgentOS.Message.serialize ⟨1, 0, [7]⟩ =
      ClientSdk.Message.serialize ⟨1, 0, [7]⟩
  ∧ (AgentOS.Message.deserialize []).map (Option.map toClientMessage) =
      ClientSdk.Message.deserialize [] :=
  ⟨claim_C10_sdk_agreement.1 1 0 [7] (by decide) (by decide),
   claim_C10_sdk_agreement.2 [] (by decide) (by decide)⟩

/-- C5: for every non-blank stdin line the worker writes exactly one
response; an invalid-JSON line produces
`{success: false, error: "Invalid JSON: ...", content: ""}` and the loop
continues with the remaining lines instead of terminating. -/
theorem claim_C5_one_response_per_line (init : Except String Unit)
    (lines : List LlmService.StdinLine) :
    (LlmService.mainLoop init lines).length =
      lines.countP (fun l => !l.isBlank)
  ∧ ∀ (msg : String) (rest : List LlmService.StdinLine),
      LlmService.mainLoop init (.badJson msg :: rest) =
        ⟨false, "", none, none, some ("Invalid JSON: " ++ msg)⟩ ::
          LlmService.mainLoop init rest := by
  constructor
  · induction lines with
    | nil => simp [LlmService.mainLoop]
    | cons hd tl ih =>
      cases hd <;>
        simp [LlmService.mainLoop, LlmService.StdinLine.isBlank,
          List.countP_cons, ih]
  · intro msg rest
    simp [LlmService.mainLoop, LlmService.badJsonResponse]

theorem claim_C5_one_response_per_line_witness :
    (LlmService.mainLoop (.ok ()) [.blank, .badJson "x"]).length =
      [LlmService.StdinLine.blank, .badJson "x"].countP (fun l => !l.isBlank)
  ∧ LlmService.mainLoop (.ok ()) [.badJson "x"] =
      ⟨false, "", none, none, some ("Invalid JSON: " ++ "x")⟩ ::
        LlmService.mainLoop (.ok ()) [] :=
  ⟨(claim_C5_one_response_per_line (.ok ())
      [.blank, .badJson "x"]).1,
   (claim_C5_one_response_per_line (.ok ()) []).2 "x" []⟩

/-- C6: `handle_request` is total (it never propagates an exception): any
failure inside its `try` block yields `{success: false, error: <string>,
content: ""}`, and a successful model response yields `success: true` with
`content` and `tokens` always present and `function_calls` present exactly
when the model produced function calls. -/
theorem claim_C6_handle_request_total :
    (∀ e : String, LlmService.handle_request (.error e) =
        ⟨false, "", none, none, some e⟩)
  ∧ (∀ resp : LlmService.GenaiResponse,
      (LlmService.handle_request (.ok resp)).success = true
    ∧ (LlmService.handle_request (.ok resp)).content =
        LlmService.extractText resp
    ∧ (LlmService.handle_request (.ok resp)).tokens.isSome
    ∧ (LlmService.handle_request (.ok resp)).error = none
    ∧ ((LlmService.handle_request (.ok resp)).function_calls ≠ none ↔
        LlmService.extractCalls resp ≠ [])) := by
  constructor
  · intro e
    rfl
  · intro resp
    refine ⟨rfl, rfl, by simp [LlmService.handle_request], rfl, ?_⟩
    simp only [LlmService.handle_request]
    rcases hc : LlmService.extractCalls resp with _ | ⟨fc, fcs⟩ <;>
      simp [hc]

theorem claim_C6_handle_request_total_witness :
    LlmService.handle_request (.error "boom") =
      ⟨false, "", none, none, some "boom"⟩
  ∧ (LlmService.handle_request
      (.ok ⟨some 3, [], .ok (some "hi")⟩)).success = true :=
  ⟨claim_C6_handle_request_total.1 "boom",
   (claim_C6_handle_request_total.2 ⟨some 3, [], .ok (some "hi")⟩).1⟩

end Clove
